import Mathlib

/-!
Verification of the tab/document session core of `rusty-editor` (src/main.rs).

The session state of `TextEditorApp` is shallowly embedded: the registry
`tabs : HashMap<String, FileTab>` becomes an association list whose insert
replaces any previous binding of the key (so lookup semantics match the
HashMap exactly), `open_order : Vec<String>` becomes `List String`, and
`active_tab : Option<String>` becomes `Option String`.  External
collaborators (file reads, the save dialog, `fs::rename`, syntax
classification) are passed in as parameters describing the outcome of the
external call, exactly where the Rust code consumes their results.
-/

/-- A filesystem path, kept abstract as a directory part plus a final
component (the base name).  `Path::file_name` is `base`;
`Path::with_file_name` replaces `base`. -/
structure FsPath where
  dir : String
  base : String
deriving DecidableEq, Repr

/-- Embeds `PathBuf::with_file_name`: replace the final component. -/
def FsPath.withFileName (p : FsPath) (name : String) : FsPath :=
  { p with base := name }

/-- Embeds `struct FileTab` (src/main.rs lines 11-18).  The Rust field
`syntax` (an optional language label) is named `lang` here because the
original name is a Lean keyword. -/
structure FileTab where
  path : Option FsPath
  title : String
  content : String
  lang : Option String
  last_find : Option Nat
deriving DecidableEq, Repr

/-- The session core of `TextEditorApp` (src/main.rs lines 20-49):
registry, open order, active selection, the untitled-file counter and the
find-result count.  Presentation fields (dialog visibility, theme,
sidebar width, the folder browser) are outside the session core. -/
structure Session where
  tabs : List (String × FileTab)
  open_order : List String
  active_tab : Option String
  new_file_counter : Nat
  found_count : Nat
deriving DecidableEq, Repr

/-- Lookup in the registry, the association-list rendering of
`HashMap::get`. -/
def lookupTab : List (String × FileTab) → String → Option FileTab
  | [], _ => none
  | (k', v) :: rest, k => if k' = k then some v else lookupTab rest k

/-- `HashMap::insert`: any previous binding of the key is replaced.  The
new binding is put in front and stale bindings are filtered out, so keys
stay distinct; lookup agrees with the HashMap at every key. -/
def mapInsert (m : List (String × FileTab)) (k : String) (v : FileTab) :
    List (String × FileTab) :=
  (k, v) :: m.filter (fun p => p.1 != k)

/-- `HashMap::remove` (the returned value is read off with `lookupTab`
separately where the Rust code uses it). -/
def mapRemove (m : List (String × FileTab)) (k : String) :
    List (String × FileTab) :=
  m.filter (fun p => p.1 != k)

/-- The state `TextEditorApp::default()` starts from (src/main.rs lines
51-76): no tabs, empty open order, no active tab, counter 1, found
count 0. -/
def emptySession : Session :=
  { tabs := [], open_order := [], active_tab := none,
    new_file_counter := 1, found_count := 0 }

/-- Embeds `TextEditorApp::open_file` (src/main.rs lines 79-100) in the
case where `fs::read_to_string` succeeds, `content` being the text read
and `hint` the result of the syntax-classification lookup.  The key is
the path's base name; the tab is inserted into the registry (replacing
any tab already under that key), the key is pushed onto the open order
unconditionally, and the tab becomes active.  A failed read leaves the
state unchanged and is not modelled. -/
def open_file (s : Session) (p : FsPath) (content : String)
    (hint : Option String) : Session :=
  let fileName := p.base
  let tab : FileTab :=
    { path := some p, title := fileName, content := content,
      lang := hint, last_find := none }
  { s with
    tabs := mapInsert s.tabs fileName tab,
    open_order := s.open_order ++ [fileName],
    active_tab := some fileName }

/-- Embeds `TextEditorApp::create_new_file` (src/main.rs lines 102-115):
title is "Untitled N" for the current counter, the counter is
incremented, an empty tab is inserted, appended to the open order and
made active. -/
def create_new_file (s : Session) : Session :=
  let title := "Untitled " ++ toString s.new_file_counter
  let tab : FileTab :=
    { path := none, title := title, content := "",
      lang := none, last_find := none }
  { s with
    tabs := mapInsert s.tabs title tab,
    open_order := s.open_order ++ [title],
    active_tab := some title,
    new_file_counter := s.new_file_counter + 1 }

/-- Embeds `TextEditorApp::save_active` (src/main.rs lines 117-133).
`dialogResult` is what `FileDialog::save_file()` would return (consulted
only when the tab has no path); `writeOk` is whether `fs::write`
succeeds.  Only on a successful write is the tab's path set to the
target path. -/
def save_active (s : Session) (dialogResult : Option FsPath)
    (writeOk : Bool) : Session :=
  match s.active_tab with
  | none => s
  | some tabName =>
    match lookupTab s.tabs tabName with
    | none => s
    | some tab =>
      let targetPath := match tab.path with
        | some p => some p
        | none => dialogResult
      match targetPath with
      | none => s
      | some p =>
        if writeOk then
          { s with tabs := mapInsert s.tabs tabName { tab with path := some p } }
        else s

/-- Embeds the tab-close handler (src/main.rs lines 260-266): the key is
removed from the registry, every matching open-order entry is retained
out, and if the closed key was active the new active key is the open
order's last element (or none). -/
def close_tab (s : Session) (toClose : String) : Session :=
  let tabs' := mapRemove s.tabs toClose
  let order' := s.open_order.filter (fun n => n != toClose)
  let active' := if s.active_tab = some toClose then order'.getLast?
                 else s.active_tab
  { s with tabs := tabs', open_order := order', active_tab := active' }

/-- Rust's `char::is_whitespace`: the Unicode White_Space property,
namely U+0009 to U+000D, U+0020, U+0085, U+00A0, U+1680, U+2000 to
U+200A, U+2028, U+2029, U+202F, U+205F and U+3000. -/
def isRustWhitespace (c : Char) : Bool :=
  let n := c.toNat
  (0x0009 ≤ n && n ≤ 0x000D) || n == 0x0020 || n == 0x0085 ||
  n == 0x00A0 || n == 0x1680 || (0x2000 ≤ n && n ≤ 0x200A) ||
  n == 0x2028 || n == 0x2029 || n == 0x202F || n == 0x205F ||
  n == 0x3000

/-- Embeds Rust's `str::trim` on the character list: leading and
trailing Unicode-whitespace characters are dropped. -/
def trimChars (l : List Char) : List Char :=
  ((l.dropWhile isRustWhitespace).reverse.dropWhile isRustWhitespace).reverse

/-- Embeds `str::trim`. -/
def strTrim (s : String) : String := String.mk (trimChars s.data)

/-- The tab record after the rename handler's field updates (src/main.rs
lines 299-307): when the tab has a path and the external `fs::rename`
succeeded the path's final component is replaced, otherwise the path is
untouched; the title becomes the new one. -/
def renamedTab (tab : FileTab) (newTitle : String) (fsOk : Bool) : FileTab :=
  let tab1 := match tab.path with
    | some oldPath =>
      if fsOk then { tab with path := some (oldPath.withFileName newTitle) }
      else tab
    | none => tab
  { tab1 with title := newTitle }

/-- Embeds the rename-dialog OK handler (src/main.rs lines 294-319),
acting on the active tab.  `input` is `rename_input`; `fsOk` is whether
the external `fs::rename` succeeds (consulted only when the tab has a
path; on failure the in-memory path is left unchanged and the rekey
still proceeds).  An input that trims to empty changes nothing. -/
def rename_active (s : Session) (input : String) (fsOk : Bool) : Session :=
  match s.active_tab with
  | none => s
  | some tabName =>
    match lookupTab s.tabs tabName with
    | none => s
    | some tab =>
      let newTitle := strTrim input
      if newTitle = "" then s
      else
        { s with
          tabs := mapInsert (mapRemove s.tabs tabName) newTitle
            (renamedTab tab newTitle fsOk),
          open_order := s.open_order.map
            (fun n => if n = tabName then newTitle else n),
          active_tab := some newTitle }

/-!
The search engine.  The find handler (src/main.rs lines 337-343) runs
`tab.content.matches(&needle).count()`; the replace-all handler (lines
361-369) runs `tab.content.replace(&needle, &replacement)`.  Rust's
`str` pattern machinery matches the literal needle non-overlapping,
left to right; the empty needle matches at every char boundary (a text
of n chars has n + 1 boundaries), and `replace` splices the replacement
in at every match.  The recursions below use the haystack length as
structural fuel; each step consumes at least one character, so the fuel
never runs out on the lengths it is called with.
-/

/-- Non-overlapping left-to-right match count for a non-empty needle. -/
def countFromFuel : Nat → List Char → List Char → Nat
  | 0, _, _ => 0
  | _ + 1, [], _ => 0
  | fuel + 1, h :: t, needle =>
    if needle.isPrefixOf (h :: t) then
      1 + countFromFuel fuel (t.drop (needle.length - 1)) needle
    else countFromFuel fuel t needle

/-- Non-overlapping left-to-right replacement for a non-empty needle. -/
def replaceFromFuel : Nat → List Char → List Char → List Char → List Char
  | 0, rest, _, _ => rest
  | _ + 1, [], _, _ => []
  | fuel + 1, h :: t, needle, rep =>
    if needle.isPrefixOf (h :: t) then
      rep ++ replaceFromFuel fuel (t.drop (needle.length - 1)) needle rep
    else h :: replaceFromFuel fuel t needle rep

/-- Replacement for the empty needle: the replacement is spliced in at
every char boundary, as Rust's `str::replace` does. -/
def emptyPatReplace : List Char → List Char → List Char
  | [], rep => rep
  | h :: t, rep => rep ++ h :: emptyPatReplace t rep

/-- Embeds `str::matches(needle).count()`: the empty needle matches at
each of the n + 1 char boundaries; otherwise non-overlapping
left-to-right counting. -/
def strMatchesCount (hay needle : String) : Nat :=
  match needle.data with
  | [] => hay.data.length + 1
  | _ :: _ => countFromFuel hay.data.length hay.data needle.data

/-- Embeds `str::replace(needle, rep)`. -/
def strReplace (hay needle rep : String) : String :=
  match needle.data with
  | [] => String.mk (emptyPatReplace hay.data rep.data)
  | _ :: _ => String.mk (replaceFromFuel hay.data.length hay.data needle.data rep.data)

/-- Embeds the find handler's count click (src/main.rs lines 337-343):
if there is an active tab in the registry, `found_count` is set to the
match count of the needle in its content. -/
def find_count (s : Session) (needle : String) : Session :=
  match s.active_tab with
  | none => s
  | some tabName =>
    match lookupTab s.tabs tabName with
    | none => s
    | some tab =>
      { s with found_count := strMatchesCount tab.content needle }

/-- Embeds the replace-all click (src/main.rs lines 361-369): the active
tab's content is rewritten with every non-overlapping occurrence of the
needle replaced. -/
def replace_all (s : Session) (needle rep : String) : Session :=
  match s.active_tab with
  | none => s
  | some tabName =>
    match lookupTab s.tabs tabName with
    | none => s
    | some tab =>
      let tab' := { tab with content := strReplace tab.content needle rep }
      { s with tabs := mapInsert s.tabs tabName tab' }

/-- The user-driven session operations the invariant claims quantify
over.  `openOp` models `open_file` on a successful read; `renameOp`
models the rename dialog's OK click with the given input and external
rename outcome. -/
inductive Op where
  | createOp : Op
  | openOp : FsPath → String → Option String → Op
  | closeOp : String → Op
  | renameOp : String → Bool → Op
deriving DecidableEq, Repr

/-- Apply one operation. -/
def applyOp (s : Session) : Op → Session
  | Op.createOp => create_new_file s
  | Op.openOp p content hint => open_file s p content hint
  | Op.closeOp k => close_tab s k
  | Op.renameOp input fsOk => rename_active s input fsOk

/-- Run a sequence of operations from the initial session. -/
def runOps (ops : List Op) : Session :=
  ops.foldl applyOp emptySession

/-- Invariant: the open order's key set equals the registry's key set
(every registry key is in the open order and conversely). -/
def KeysMatch (s : Session) : Prop :=
  ∀ k : String, (lookupTab s.tabs k).isSome = true ↔ k ∈ s.open_order

/-- Invariant: the active key, when set, names a registry entry. -/
def ActiveValid (s : Session) : Prop :=
  ∀ k : String, s.active_tab = some k → (lookupTab s.tabs k).isSome = true

/-- The session invariant every operation maintains. -/
def SessionInv (s : Session) : Prop := KeysMatch s ∧ ActiveValid s

/-- A session with one opened document keyed "f" whose content is "a". -/
def sA : Session := runOps [Op.openOp ⟨"d", "f"⟩ "a" none]

/-- A session with one opened document keyed "f" whose content is "aaa". -/
def sAAA : Session := runOps [Op.openOp ⟨"d", "f"⟩ "aaa" none]

/-- A session with three open tabs in order A, B, C, with B active (as
after clicking tab B). -/
def sABC : Session :=
  { tabs := [("A", { path := none, title := "A", content := "",
                     lang := none, last_find := none }),
             ("B", { path := none, title := "B", content := "",
                     lang := none, last_find := none }),
             ("C", { path := none, title := "C", content := "",
                     lang := none, last_find := none })],
    open_order := ["A", "B", "C"],
    active_tab := some "B",
    new_file_counter := 1, found_count := 0 }

/-- A session with one opened document keyed "f" (bound to a path). -/
def sP : Session := runOps [Op.openOp ⟨"d", "f"⟩ "body" none]

/-- A session with two opened documents keyed "B" then "A", "A" active. -/
def sBA : Session :=
  runOps [Op.openOp ⟨"d", "B"⟩ "x" none, Op.openOp ⟨"d", "A"⟩ "y" none]

/-- A session with one newly created, never-saved document. -/
def sU : Session := runOps [Op.createOp]

/-! ### Association-list registry lemmas -/

theorem lookupTab_filter_ne (m : List (String × FileTab)) {k k' : String}
    (h : k' ≠ k) :
    lookupTab (m.filter (fun p => p.1 != k)) k' = lookupTab m k' := by
  induction m with
  | nil => rfl
  | cons p rest ih =>
    obtain ⟨k0, v0⟩ := p
    by_cases hk0 : k0 = k
    · subst hk0
      have hne : ¬ k0 = k' := fun e => h e.symm
      simp [List.filter_cons, lookupTab, hne, ih]
    · simp [List.filter_cons, lookupTab, hk0, ih]

theorem lookupTab_filter_self (m : List (String × FileTab)) (k : String) :
    lookupTab (m.filter (fun p => p.1 != k)) k = none := by
  induction m with
  | nil => rfl
  | cons p rest ih =>
    obtain ⟨k0, v0⟩ := p
    by_cases hk0 : k0 = k
    · subst hk0; simp [List.filter_cons, ih]
    · simp [List.filter_cons, lookupTab, hk0, ih]

theorem lookupTab_mapInsert_self (m : List (String × FileTab)) (k : String)
    (v : FileTab) : lookupTab (mapInsert m k v) k = some v := by
  simp [mapInsert, lookupTab]

theorem lookupTab_mapInsert_ne (m : List (String × FileTab)) {k k' : String}
    (v : FileTab) (h : k' ≠ k) :
    lookupTab (mapInsert m k v) k' = lookupTab m k' := by
  have hne : ¬ k = k' := fun e => h e.symm
  simp [mapInsert, lookupTab, hne]
  exact lookupTab_filter_ne m h

theorem isSome_lookupTab_mapInsert (m : List (String × FileTab))
    (k k' : String) (v : FileTab) :
    (lookupTab (mapInsert m k v) k').isSome = true ↔
      k' = k ∨ (lookupTab m k').isSome = true := by
  by_cases h : k' = k
  · subst h; simp [lookupTab_mapInsert_self]
  · simp [lookupTab_mapInsert_ne m v h, h]

theorem isSome_lookupTab_mapRemove (m : List (String × FileTab))
    (a k' : String) :
    (lookupTab (mapRemove m a) k').isSome = true ↔
      k' ≠ a ∧ (lookupTab m k').isSome = true := by
  by_cases h : k' = a
  · subst h; simp [mapRemove, lookupTab_filter_self]
  · simp [mapRemove, lookupTab_filter_ne m h, h]

theorem count_keys_filter (m : List (String × FileTab)) (k : String) :
    (((m.filter (fun p => p.1 != k)).map Prod.fst).count k) = 0 := by
  induction m with
  | nil => rfl
  | cons p rest ih =>
    obtain ⟨k0, v0⟩ := p
    by_cases hk0 : k0 = k
    · subst hk0; simp [List.filter_cons, ih]
    · simp [List.filter_cons, hk0, List.count_cons, ih]

theorem count_map_ite (A B : String) (hAB : A ≠ B) (l : List String) :
    (l.map (fun n => if n = A then B else n)).count B =
      l.count B + l.count A := by
  induction l with
  | nil => rfl
  | cons n l ih =>
    by_cases hn : n = A
    · subst hn
      have hnB : ¬ n = B := hAB
      simp [List.count_cons, ih, hnB]
      omega
    · simp [List.count_cons, hn, ih]
      by_cases hB : n = B
      · simp [hB]; omega
      · simp [hB]

/-! ### Preservation of the session invariant -/

theorem sessionInv_empty : SessionInv emptySession := by
  constructor
  · intro k; simp [emptySession, lookupTab]
  · intro k h; simp [emptySession] at h

theorem keysMatch_insert_append (s : Session) (k : String) (v : FileTab)
    (h : KeysMatch s) (k' : String) :
    (lookupTab (mapInsert s.tabs k v) k').isSome = true ↔
      k' ∈ s.open_order ++ [k] := by
  rw [isSome_lookupTab_mapInsert, List.mem_append]
  simp [h k']
  tauto

theorem sessionInv_create (s : Session) (h : SessionInv s) :
    SessionInv (create_new_file s) := by
  obtain ⟨hk, ha⟩ := h
  constructor
  · intro k'
    simpa [create_new_file] using keysMatch_insert_append s _ _ hk k'
  · intro k' hk'
    simp [create_new_file] at hk'
    simp [create_new_file, ← hk', lookupTab_mapInsert_self]

theorem sessionInv_open (s : Session) (p : FsPath) (c : String)
    (hint : Option String) (h : SessionInv s) :
    SessionInv (open_file s p c hint) := by
  obtain ⟨hk, ha⟩ := h
  constructor
  · intro k'
    simpa [open_file] using keysMatch_insert_append s _ _ hk k'
  · intro k' hk'
    simp [open_file] at hk'
    simp [open_file, ← hk', lookupTab_mapInsert_self]

theorem sessionInv_close (s : Session) (k0 : String) (h : SessionInv s) :
    SessionInv (close_tab s k0) := by
  obtain ⟨hk, ha⟩ := h
  have hkeys : ∀ k', (lookupTab (mapRemove s.tabs k0) k').isSome = true ↔
      k' ∈ s.open_order.filter (fun n => n != k0) := by
    intro k'
    rw [isSome_lookupTab_mapRemove]
    simp [List.mem_filter, hk k']
    tauto
  constructor
  · intro k'
    simpa [close_tab] using hkeys k'
  · intro k' hk'
    by_cases hact : s.active_tab = some k0
    · have hk'' : (s.open_order.filter (fun n => n != k0)).getLast? = some k' := by
        have h0 := hk'
        simp only [close_tab] at h0
        rwa [if_pos hact] at h0
      have hmem : k' ∈ s.open_order.filter (fun n => n != k0) := by
        obtain ⟨hne, heq⟩ := List.mem_getLast?_eq_getLast (Option.mem_def.mpr hk'')
        exact heq ▸ List.getLast_mem hne
      exact (hkeys k').mpr hmem
    · have hk'' : s.active_tab = some k' := by
        have h0 := hk'
        simp only [close_tab] at h0
        rwa [if_neg hact] at h0
      have hne : k' ≠ k0 := by
        intro e; subst e; exact hact hk''
      show (lookupTab (mapRemove s.tabs k0) k').isSome = true
      rw [isSome_lookupTab_mapRemove]
      exact ⟨hne, ha k' hk''⟩

theorem rename_active_of_inactive (s : Session) (input : String)
    (fsOk : Bool) (h : s.active_tab = none) :
    rename_active s input fsOk = s := by
  unfold rename_active
  rw [h]

theorem rename_active_of_missing (s : Session) (a input : String)
    (fsOk : Bool) (hact : s.active_tab = some a)
    (hlook : lookupTab s.tabs a = none) :
    rename_active s input fsOk = s := by
  unfold rename_active
  rw [hact]
  simp only [hlook]

theorem rename_active_of_trim_empty (s : Session) (input : String)
    (fsOk : Bool) (h : strTrim input = "") :
    rename_active s input fsOk = s := by
  unfold rename_active
  cases hact : s.active_tab with
  | none => rfl
  | some a =>
    cases hlook : lookupTab s.tabs a with
    | none => simp [hlook]
    | some tab => simp [hlook, h]

theorem rename_active_spec (s : Session) (a input : String) (tab : FileTab)
    (fsOk : Bool) (hact : s.active_tab = some a)
    (hlook : lookupTab s.tabs a = some tab)
    (htrim : ¬ strTrim input = "") :
    rename_active s input fsOk =
      { s with
        tabs := mapInsert (mapRemove s.tabs a) (strTrim input)
          (renamedTab tab (strTrim input) fsOk),
        open_order := s.open_order.map
          (fun n => if n = a then strTrim input else n),
        active_tab := some (strTrim input) } := by
  unfold rename_active
  rw [hact]
  simp only [hlook, if_neg htrim]

theorem sessionInv_rename (s : Session) (input : String) (fsOk : Bool)
    (h : SessionInv s) : SessionInv (rename_active s input fsOk) := by
  obtain ⟨hk, ha⟩ := h
  cases hact : s.active_tab with
  | none => rw [rename_active_of_inactive s input fsOk hact]; exact ⟨hk, ha⟩
  | some a =>
    cases hlook : lookupTab s.tabs a with
    | none =>
      rw [rename_active_of_missing s a input fsOk hact hlook]; exact ⟨hk, ha⟩
    | some tab =>
      by_cases htrim : strTrim input = ""
      · rw [rename_active_of_trim_empty s input fsOk htrim]; exact ⟨hk, ha⟩
      · rw [rename_active_spec s a input tab fsOk hact hlook htrim]
        have haor : a ∈ s.open_order := (hk a).mp (by simp [hlook])
        constructor
        · intro k'
          show (lookupTab (mapInsert (mapRemove s.tabs a) (strTrim input) _) k').isSome
              = true ↔ k' ∈ s.open_order.map (fun n => if n = a then strTrim input else n)
          rw [isSome_lookupTab_mapInsert, isSome_lookupTab_mapRemove,
            List.mem_map]
          constructor
          · rintro (he | ⟨hne, hsome⟩)
            · exact ⟨a, haor, by simp [he]⟩
            · exact ⟨k', (hk k').mp hsome, by simp [hne]⟩
          · rintro ⟨n, hn, hfn⟩
            by_cases hna : n = a
            · subst hna; simp at hfn; exact Or.inl hfn.symm
            · simp [hna] at hfn
              subst hfn
              exact Or.inr ⟨hna, (hk n).mpr hn⟩
        · intro k' hk'
          simp only [Option.some.injEq] at hk'
          simp [← hk', lookupTab_mapInsert_self]

theorem sessionInv_applyOp (s : Session) (op : Op) (h : SessionInv s) :
    SessionInv (applyOp s op) := by
  cases op with
  | createOp => exact sessionInv_create s h
  | openOp p c hint => exact sessionInv_open s p c hint h
  | closeOp k => exact sessionInv_close s k h
  | renameOp input fsOk => exact sessionInv_rename s input fsOk h

theorem sessionInv_foldl (ops : List Op) (s : Session) (h : SessionInv s) :
    SessionInv (ops.foldl applyOp s) := by
  induction ops generalizing s with
  | nil => exact h
  | cons op rest ih => exact ih _ (sessionInv_applyOp s op h)

theorem sessionInv_runOps (ops : List Op) : SessionInv (runOps ops) :=
  sessionInv_foldl ops emptySession sessionInv_empty

/-! ### Search-engine lemmas -/

theorem emptyPatReplace_nil_rep (l : List Char) : emptyPatReplace l [] = l := by
  induction l with
  | nil => rfl
  | cons h t ih => simp [emptyPatReplace, ih]

theorem emptyPatReplace_length (l r : List Char) :
    (emptyPatReplace l r).length = l.length + (l.length + 1) * r.length := by
  induction l with
  | nil => simp [emptyPatReplace]
  | cons h t ih => simp [emptyPatReplace, ih]; ring

theorem strReplace_empty_needle (c r : String) :
    strReplace c "" r = String.mk (emptyPatReplace c.data r.data) := rfl

theorem strMatchesCount_empty_needle (c : String) :
    strMatchesCount c "" = c.data.length + 1 := rfl

theorem strReplace_empty_needle_ne (c r : String) (hr : r.data ≠ []) :
    strReplace c "" r ≠ c := by
  intro he
  have hdata : emptyPatReplace c.data r.data = c.data := by
    have := congrArg String.data he
    rwa [strReplace_empty_needle] at he
  have hlen := congrArg List.length hdata
  rw [emptyPatReplace_length] at hlen
  have hpos : 0 < r.data.length := List.length_pos.mpr hr
  have : 0 < (c.data.length + 1) * r.data.length :=
    Nat.mul_pos (Nat.succ_pos _) hpos
  omega

/-! ### Handler equation lemmas -/

theorem find_count_spec (s : Session) (a : String) (tab : FileTab)
    (needle : String) (hact : s.active_tab = some a)
    (hlook : lookupTab s.tabs a = some tab) :
    (find_count s needle).found_count = strMatchesCount tab.content needle := by
  unfold find_count
  rw [hact]
  simp [hlook]

theorem replace_all_spec (s : Session) (a : String) (tab : FileTab)
    (needle rep : String) (hact : s.active_tab = some a)
    (hlook : lookupTab s.tabs a = some tab) :
    (replace_all s needle rep).tabs =
      mapInsert s.tabs a
        { tab with content := strReplace tab.content needle rep } := by
  unfold replace_all
  rw [hact]
  simp [hlook]

/-! ### The claims -/

/-- Claim C1, counterexample: opening the same path twice from the empty
session leaves the key "a.txt" twice in the open order (the code pushes
the key unconditionally), even though the registry entry was replaced by
the second read (content "two"). -/
theorem open_duplicate_tab_cex :
    (open_file (open_file emptySession ⟨"dir", "a.txt"⟩ "one" none)
        ⟨"dir", "a.txt"⟩ "two" none).open_order = ["a.txt", "a.txt"] ∧
    lookupTab (open_file (open_file emptySession ⟨"dir", "a.txt"⟩ "one" none)
        ⟨"dir", "a.txt"⟩ "two" none).tabs "a.txt" =
      some { path := some ⟨"dir", "a.txt"⟩, title := "a.txt",
             content := "two", lang := none, last_find := none } := by decide

/-- Claim C1 (amended): opening a path replaces the registry entry under
its base name with the newly read document (last-write-wins) but always
appends the key to the open order again, so the key's open-order count
grows by one (a duplicate tab when the key was already present). -/
theorem open_file_replaces_and_appends (s : Session) (p : FsPath)
    (c : String) (hint : Option String) :
    lookupTab (open_file s p c hint).tabs p.base =
      some { path := some p, title := p.base, content := c,
             lang := hint, last_find := none } ∧
    (open_file s p c hint).open_order = s.open_order ++ [p.base] ∧
    (open_file s p c hint).open_order.count p.base
      = s.open_order.count p.base + 1 ∧
    (open_file s p c hint).active_tab = some p.base := by
  refine ⟨?_, rfl, ?_, rfl⟩
  · exact lookupTab_mapInsert_self s.tabs p.base _
  · simp [open_file, List.count_append]

/-- Claim C2, counterexample: after opening the same file name twice the
open order holds the key twice, violating the no-duplicates part of the
claimed invariant. -/
theorem open_order_duplicate_cex :
    (runOps [Op.openOp ⟨"d", "n.rs"⟩ "fst" none,
             Op.openOp ⟨"d", "n.rs"⟩ "snd" none]).open_order.count "n.rs"
      = 2 := by decide

/-- Claim C2 (amended): after every finite sequence of create, open,
close and rename operations from the empty session, the open order's key
set equals the registry's key set (every registry key appears in the
open order and every open-order entry is a registry key); entries can
however be duplicated. -/
theorem open_order_key_set_matches_registry (ops : List Op) (k : String) :
    (lookupTab (runOps ops).tabs k).isSome = true ↔
      k ∈ (runOps ops).open_order :=
  (sessionInv_runOps ops).1 k

/-- Claim C5: after every finite sequence of create, open, close and
rename operations from the empty session, an active key, when set, names
a registry entry. -/
theorem active_key_in_registry (ops : List Op) (k : String)
    (h : (runOps ops).active_tab = some k) :
    (lookupTab (runOps ops).tabs k).isSome = true :=
  (sessionInv_runOps ops).2 k h

/-- Witness for C5 at the one-create session. -/
theorem active_key_in_registry_witness :
    (runOps [Op.createOp]).active_tab = some "Untitled 1" ∧
    (lookupTab (runOps [Op.createOp]).tabs "Untitled 1").isSome = true :=
  ⟨by decide, active_key_in_registry [Op.createOp] "Untitled 1" (by decide)⟩

/-- Claim C10: each create yields the key "Untitled N" for the current
counter value, appends it and increments the counter; concretely three
creates yield Untitled 1, 2, 3 even when Untitled 1 is closed before the
third create. -/
theorem create_untitled_counter :
    (∀ s : Session,
      (create_new_file s).active_tab =
        some ("Untitled " ++ toString s.new_file_counter) ∧
      (create_new_file s).open_order =
        s.open_order ++ ["Untitled " ++ toString s.new_file_counter] ∧
      (create_new_file s).new_file_counter = s.new_file_counter + 1) ∧
    (runOps [Op.createOp]).active_tab = some "Untitled 1" ∧
    (runOps [Op.createOp, Op.createOp]).active_tab = some "Untitled 2" ∧
    (runOps [Op.createOp, Op.createOp, Op.closeOp "Untitled 1",
             Op.createOp]).active_tab = some "Untitled 3" ∧
    (runOps [Op.createOp, Op.createOp, Op.closeOp "Untitled 1",
             Op.createOp]).open_order = ["Untitled 2", "Untitled 3"] :=
  ⟨fun s => ⟨rfl, rfl, rfl⟩, by decide, by decide, by decide, by decide⟩

/-- Claim C6: matching is literal, non-overlapping, left to right: on
content "aaa" the needle "aa" counts 1 (so one replacement is performed),
and replace-all with replacement "b" leaves content "ba". -/
theorem search_nonoverlapping_example :
    strMatchesCount "aaa" "aa" = 1 ∧
    (find_count sAAA "aa").found_count = 1 ∧
    (lookupTab (replace_all sAAA "aa" "b").tabs "f").map FileTab.content
      = some "ba" := by decide

/-- Claim C7: closing a key removes its registry entry and its
open-order entries; if the closed key was active, the new active key is
the open order's last element after removal (none when empty), and an
inactive close leaves the active key alone. -/
theorem close_tab_spec (s : Session) (k : String) :
    lookupTab (close_tab s k).tabs k = none ∧
    k ∉ (close_tab s k).open_order ∧
    (s.active_tab = some k →
      (close_tab s k).active_tab = (close_tab s k).open_order.getLast?) ∧
    (s.active_tab ≠ some k → (close_tab s k).active_tab = s.active_tab) := by
  refine ⟨?_, ?_, ?_, ?_⟩
  · exact lookupTab_filter_self s.tabs k
  · simp [close_tab, List.mem_filter]
  · intro h
    simp only [close_tab]
    rw [if_pos h]
  · intro h
    simp only [close_tab]
    rw [if_neg h]

/-- Witness for C7: with open order A, B, C and B active, closing B
makes C active (the new last element), and B is gone from registry and
open order. -/
theorem close_tab_spec_witness :
    (close_tab sABC "B").active_tab = some "C" ∧
    lookupTab (close_tab sABC "B").tabs "B" = none ∧
    "B" ∉ (close_tab sABC "B").open_order := by
  have h := close_tab_spec sABC "B"
  refine ⟨?_, h.1, h.2.1⟩
  rw [h.2.2.1 (by decide)]
  decide

/-- Claim C3, counterexample: with documents open under "B" then "A"
("A" active), renaming "A" to "B" leaves "B" twice in the open order
(the old "B" entry stays, the "A" entry is rewritten to "B"). -/
theorem rename_duplicate_open_order_cex :
    (runOps [Op.openOp ⟨"d", "B"⟩ "x" none, Op.openOp ⟨"d", "A"⟩ "y" none,
             Op.renameOp "B" false]).open_order = ["B", "B"] := by decide

/-- Claim C3 (amended): renaming the active document keyed A (record
`tab`) to the title B of another open document leaves exactly one
registry entry under B, and that entry is the renamed document itself
(`renamedTab tab B fsOk`, which keeps A's content — the previous holder
of B is lost); but the open order then contains B twice: the old B
entry plus A's rewritten entry. -/
theorem rename_onto_open_key (s : Session) (A B : String) (tab : FileTab)
    (fsOk : Bool) (hact : s.active_tab = some A)
    (hlook : lookupTab s.tabs A = some tab)
    (htrim : strTrim B = B) (hne : B ≠ "") (hAB : A ≠ B)
    (hcA : s.open_order.count A = 1) (hcB : s.open_order.count B = 1) :
    lookupTab (rename_active s B fsOk).tabs B = some (renamedTab tab B fsOk) ∧
    (renamedTab tab B fsOk).content = tab.content ∧
    ((rename_active s B fsOk).tabs.map Prod.fst).count B = 1 ∧
    (rename_active s B fsOk).open_order.count B = 2 := by
  have htrimne : ¬ strTrim B = "" := by rw [htrim]; exact hne
  rw [rename_active_spec s A B tab fsOk hact hlook htrimne, htrim]
  refine ⟨?_, ?_, ?_, ?_⟩
  · exact lookupTab_mapInsert_self _ B _
  · cases hp : tab.path <;> cases fsOk <;> simp [renamedTab, hp]
  · have h0 := count_keys_filter (mapRemove s.tabs A) B
    simp [mapInsert, List.count_cons, h0]
  · rw [count_map_ite A B hAB, hcA, hcB]

/-- Witness for C3 at the session with "B" (content "x") and "A"
(content "y") open: after the rename the single entry under "B" is the
former A document with content "y". -/
theorem rename_onto_open_key_witness :
    lookupTab (rename_active sBA "B" false).tabs "B" =
      some { path := some ⟨"d", "A"⟩, title := "B", content := "y",
             lang := none, last_find := none } ∧
    ((rename_active sBA "B" false).tabs.map Prod.fst).count "B" = 1 ∧
    (rename_active sBA "B" false).open_order.count "B" = 2 := by
  have h := rename_onto_open_key sBA "A" "B"
      { path := some ⟨"d", "A"⟩, title := "A", content := "y",
        lang := none, last_find := none } false
      (by decide) (by decide) (by decide) (by decide) (by decide)
      (by decide) (by decide)
  exact ⟨by rw [h.1]; decide, h.2.2.1, h.2.2.2⟩

/-- Claim C4, counterexample: on a document whose content is "a", the
count click with the empty needle reports 2 (one match per char
boundary), not 0, and replace-all with empty needle and replacement "b"
rewrites the content to "bab", so it is not left unchanged. -/
theorem empty_needle_cex :
    (find_count sA "").found_count = 2 ∧
    (lookupTab (replace_all sA "" "b").tabs "f").map FileTab.content
      = some "bab" := by decide

/-- Claim C4 (amended): the empty needle matches at every char boundary:
the count click reports the content's char count plus one, and
replace-all with empty needle splices the replacement in at every
boundary, so content is unchanged exactly when the replacement is empty
and changed whenever it is not. -/
theorem empty_needle_policy (s : Session) (a : String) (tab : FileTab)
    (hact : s.active_tab = some a) (hlook : lookupTab s.tabs a = some tab) :
    (find_count s "").found_count = tab.content.data.length + 1 ∧
    lookupTab (replace_all s "" "").tabs a = some tab ∧
    (∀ r : String, r.data ≠ [] → strReplace tab.content "" r ≠ tab.content) := by
  refine ⟨?_, ?_, ?_⟩
  · rw [find_count_spec s a tab "" hact hlook, strMatchesCount_empty_needle]
  · rw [replace_all_spec s a tab "" "" hact hlook]
    have h2 : strReplace tab.content "" "" = tab.content := by
      rw [strReplace_empty_needle, emptyPatReplace_nil_rep]
    rw [h2, lookupTab_mapInsert_self]
  · exact fun r hr => strReplace_empty_needle_ne tab.content r hr

/-- Witness for C4 at the one-document session with content "a". -/
theorem empty_needle_policy_witness :
    (find_count sA "").found_count = 2 ∧ strReplace "a" "" "b" ≠ "a" := by
  have h := empty_needle_policy sA "f"
      { path := some ⟨"d", "f"⟩, title := "f", content := "a",
        lang := none, last_find := none } (by decide) (by decide)
  exact ⟨by rw [h.1]; decide, h.2.2 "b" (by decide)⟩

/-- Claim C8: a rename input that trims to empty changes no session
state at all; a non-empty trimmed title performs the in-memory rekey
(registry re-insertion under the new title, title field update,
open-order substitution, active-key update) even when the external
filesystem rename fails, in which case the document's path is left
unchanged (the looked-up record below keeps the original path field). -/
theorem rename_empty_and_fs_failure (s : Session) (input : String)
    (fsOk : Bool) (a : String) (tab : FileTab) (p : FsPath) :
    (strTrim input = "" → rename_active s input fsOk = s) ∧
    (s.active_tab = some a → lookupTab s.tabs a = some tab →
      tab.path = some p → ¬ strTrim input = "" →
      (rename_active s input false).active_tab = some (strTrim input) ∧
      lookupTab (rename_active s input false).tabs (strTrim input) =
        some { tab with title := strTrim input } ∧
      (rename_active s input false).open_order =
        s.open_order.map (fun n => if n = a then strTrim input else n)) := by
  constructor
  · exact fun h => rename_active_of_trim_empty s input fsOk h
  · intro hact hlook hp hne
    rw [rename_active_spec s a input tab false hact hlook hne]
    refine ⟨rfl, ?_, rfl⟩
    rw [lookupTab_mapInsert_self]
    simp [renamedTab, hp]

/-- Witness for C8: on a path-bound document keyed "f", a whitespace
rename input is a no-op, and renaming to "g" with the filesystem rename
failing still rekeys in memory while keeping the original path. -/
theorem rename_empty_and_fs_failure_witness :
    rename_active sP "   " true = sP ∧
    (rename_active sP "g" false).active_tab = some "g" ∧
    lookupTab (rename_active sP "g" false).tabs "g" =
      some { path := some ⟨"d", "f"⟩, title := "g", content := "body",
             lang := none, last_find := none } := by
  have h1 := rename_empty_and_fs_failure sP "   " true "f"
      { path := some ⟨"d", "f"⟩, title := "f", content := "body",
        lang := none, last_find := none } ⟨"d", "f"⟩
  have h2 := rename_empty_and_fs_failure sP "g" false "f"
      { path := some ⟨"d", "f"⟩, title := "f", content := "body",
        lang := none, last_find := none } ⟨"d", "f"⟩
  have hg := h2.2 (by decide) (by decide) (by decide) (by decide)
  have hsg : strTrim "g" = "g" := by decide
  rw [hsg] at hg
  exact ⟨h1.1 (by decide), hg.1, hg.2.1⟩

/-- Claim C9: saving an active document with no source path: a cancelled
path prompt leaves the whole session unchanged; a chosen path with a
failed write leaves the whole session unchanged (in particular the path
stays absent); only a successful write binds the document to the chosen
path (content untouched). -/
theorem save_unbound_spec (s : Session) (a : String) (tab : FileTab)
    (p : FsPath) (wOk : Bool) (hact : s.active_tab = some a)
    (hlook : lookupTab s.tabs a = some tab) (hp : tab.path = none) :
    save_active s none wOk = s ∧
    save_active s (some p) false = s ∧
    lookupTab (save_active s (some p) true).tabs a =
      some { tab with path := some p } := by
  refine ⟨?_, ?_, ?_⟩
  · unfold save_active
    rw [hact]
    simp [hlook, hp]
  · unfold save_active
    rw [hact]
    simp [hlook, hp]
  · unfold save_active
    rw [hact]
    simp [hlook, hp, lookupTab_mapInsert_self]

/-- Witness for C9 at the one-create session (never-saved document). -/
theorem save_unbound_spec_witness :
    save_active sU none true = sU ∧
    save_active sU (some ⟨"dd", "u.txt"⟩) false = sU ∧
    lookupTab (save_active sU (some ⟨"dd", "u.txt"⟩) true).tabs "Untitled 1" =
      some { path := some ⟨"dd", "u.txt"⟩, title := "Untitled 1",
             content := "", lang := none, last_find := none } := by
  have h := save_unbound_spec sU "Untitled 1"
      { path := none, title := "Untitled 1", content := "",
        lang := none, last_find := none } ⟨"dd", "u.txt"⟩ true
      (by decide) (by decide) (by decide)
  exact ⟨h.1, h.2.1, h.2.2⟩
